import Mathlib

set_option linter.unusedVariables false

/-!
# Verification of the auto_trade core

Shallow embedding of the auto_trade trading server (Go) and proofs about it.

Modelling conventions:
* Go `float64` prices and sizes are modelled as rationals (`ℚ`); the
  operations the claims exercise (comparisons, doubling, `entry + 1`,
  `entry * (1 + tp/100)`) are exact in both representations.
* Go `time.Time` is modelled as `Nat`; the zero value ("unset") of
  `time.Time` is modelled by `Option Nat` with `none` (Go's `IsZero`).
* The `uuid.New()` source is modelled by a counter threaded through each
  store (`nextUuid`); ids keep the Go formats `trade-<token>`,
  `<kind>-<token>`.
* Go maps are modelled as association/record lists; `delete` is `filter`,
  map iteration order is list order.
* Functions that take `time.Now()` receive an explicit `now : Nat`.
* Error messages keep the Go text but drop printf-formatted numbers where
  they are irrelevant to the claims.
-/

namespace AutoTrade

/-- internal/models (trade model): a trading position. `exitPrice` has Go
zero value `0` until the trade is closed; `exitTime = none` models the Go
zero `time.Time`. -/
structure Trade where
  id : String
  symbol : String
  entryPrice : ℚ
  exitPrice : ℚ
  entryTime : Nat
  exitTime : Option Nat
deriving Repr, DecidableEq

/-- internal/models: trade error codes (`ErrTradeNotFound`,
`ErrTradeAlreadyClosed`; the remaining declared codes are not produced by
the store). -/
inductive TradeErrorCode
  | tradeNotFound
  | tradeAlreadyClosed
deriving Repr, DecidableEq

/-- internal/models: `TradeError{Code, Message}`. -/
structure TradeError where
  code : TradeErrorCode
  message : String
deriving Repr, DecidableEq

/-- internal/store/memory/trade_store.go: `InMemoryTradeStore` with its two
partitions. The listener list is omitted: listeners receive copies and do
not affect store state. -/
structure InMemoryTradeStore where
  openTrades : List Trade
  tradeHistory : List Trade
  nextUuid : Nat
deriving Repr, DecidableEq

/-- `NewInMemoryTradeStore()`. -/
def emptyTradeStore : InMemoryTradeStore := ⟨[], [], 0⟩

/-- `InMemoryTradeStore.CreateTrade`: mints an id, stamps `entry_time`,
inserts into the open set. The Go error result is always `nil`; the
function performs no validation of `entryPrice`. -/
def InMemoryTradeStore.CreateTrade (s : InMemoryTradeStore) (symbol : String)
    (entryPrice : ℚ) (now : Nat) : Except TradeError (Trade × InMemoryTradeStore) :=
  let trade : Trade :=
    { id := "trade-" ++ toString s.nextUuid
      symbol := symbol
      entryPrice := entryPrice
      exitPrice := 0
      entryTime := now
      exitTime := none }
  .ok (trade, { s with openTrades := s.openTrades ++ [trade], nextUuid := s.nextUuid + 1 })

/-- `InMemoryTradeStore.CloseTrade`: looks the id up in the open set
(`NotFound` otherwise), rejects if `ExitTime` is set (`AlreadyClosed`),
then stamps `exit_time = now`, sets `exit_price = entry_price + 1`
("Mock exit price for demo"), and moves the record to history. -/
def InMemoryTradeStore.CloseTrade (s : InMemoryTradeStore) (id : String) (now : Nat) :
    Except TradeError (Trade × InMemoryTradeStore) :=
  match s.openTrades.find? (fun t => t.id == id) with
  | none => .error ⟨.tradeNotFound, "Trade not found: " ++ id⟩
  | some trade =>
    if trade.exitTime.isSome then
      .error ⟨.tradeAlreadyClosed, "Trade already closed: " ++ id⟩
    else
      let closed := { trade with exitTime := some now, exitPrice := trade.entryPrice + 1 }
      .ok (closed, { s with
        openTrades := s.openTrades.filter (fun t => t.id != id),
        tradeHistory := s.tradeHistory ++ [closed] })

/-- `InMemoryTradeStore.GetOpenTrades` (error result always `nil`). -/
def InMemoryTradeStore.GetOpenTrades (s : InMemoryTradeStore) : List Trade :=
  s.openTrades

/-- `InMemoryTradeStore.GetTradeHistory` (error result always `nil`). -/
def InMemoryTradeStore.GetTradeHistory (s : InMemoryTradeStore) : List Trade :=
  s.tradeHistory

/-- Go `map[string]interface{}` parameter values as used by the strategy
factories: strings and numbers. -/
inductive ParamValue
  | str (s : String)
  | num (q : ℚ)
deriving Repr, DecidableEq

/-- A parameter mapping (`map[string]interface{}`). -/
abbrev Params := List (String × ParamValue)

/-- Go type assertion `params[k].(string)`. -/
def Params.getString (p : Params) (k : String) : Option String :=
  match p.lookup k with
  | some (.str s) => some s
  | _ => none

/-- Go type assertion `params[k].(float64)`. -/
def Params.getNumber (p : Params) (k : String) : Option ℚ :=
  match p.lookup k with
  | some (.num q) => some q
  | _ => none

/-- internal/models/strategy.go: a strategy record. -/
structure Strategy where
  id : String
  name : String
  params : Params
  startTime : Nat
  stopTime : Option Nat
  status : String
deriving Repr, DecidableEq

/-- `models.NewStrategy`: fresh id `<name>-<token>`, active status. -/
def NewStrategy (name : String) (params : Params) (uuid : Nat) (now : Nat) : Strategy :=
  { id := name ++ "-" ++ toString uuid
    name := name
    params := params
    startTime := now
    stopTime := none
    status := "active" }

/-- `Strategy.Stop`: stamps stop time and sets status to "stopped". -/
def Strategy.Stop (s : Strategy) (now : Nat) : Strategy :=
  { s with stopTime := some now, status := "stopped" }

/-- internal/models: strategy error codes. -/
inductive StrategyErrorCode
  | strategyNotFound
  | alreadyStopped
  | invalidStrategy
deriving Repr, DecidableEq

/-- internal/models: `StrategyError{Code, Message}`. -/
structure StrategyError where
  code : StrategyErrorCode
  message : String
deriving Repr, DecidableEq

/-- internal/store/memory/strategy_store.go: `InMemoryStrategyStore`. -/
structure InMemoryStrategyStore where
  activeStrategies : List Strategy
  strategyHistory : List Strategy
  nextUuid : Nat
deriving Repr, DecidableEq

/-- `NewInMemoryStrategyStore()`. -/
def emptyStrategyStore : InMemoryStrategyStore := ⟨[], [], 0⟩

/-- `InMemoryStrategyStore.CreateStrategy` (error result always `nil`). -/
def InMemoryStrategyStore.CreateStrategy (s : InMemoryStrategyStore) (name : String)
    (params : Params) (now : Nat) : Except StrategyError (Strategy × InMemoryStrategyStore) :=
  let strat := NewStrategy name params s.nextUuid now
  .ok (strat, { s with
    activeStrategies := s.activeStrategies ++ [strat],
    nextUuid := s.nextUuid + 1 })

/-- `InMemoryStrategyStore.StopStrategy`: `NotFound` when the id is not in
the active map; `AlreadyStopped` when the active record's status is
already "stopped"; otherwise stops the record and moves it to history. -/
def InMemoryStrategyStore.StopStrategy (s : InMemoryStrategyStore) (id : String) (now : Nat) :
    Except StrategyError (Strategy × InMemoryStrategyStore) :=
  match s.activeStrategies.find? (fun st => st.id == id) with
  | none => .error ⟨.strategyNotFound, "Strategy not found: " ++ id⟩
  | some strat =>
    if strat.status == "stopped" then
      .error ⟨.alreadyStopped, "Strategy already stopped: " ++ id⟩
    else
      let stopped := strat.Stop now
      .ok (stopped, { s with
        activeStrategies := s.activeStrategies.filter (fun st => st.id != id),
        strategyHistory := s.strategyHistory ++ [stopped] })

/-- `InMemoryStrategyStore.GetActiveStrategies` (error result always `nil`). -/
def InMemoryStrategyStore.GetActiveStrategies (s : InMemoryStrategyStore) : List Strategy :=
  s.activeStrategies

/-- `InMemoryStrategyStore.GetStrategyHistory` (error result always `nil`). -/
def InMemoryStrategyStore.GetStrategyHistory (s : InMemoryStrategyStore) : List Strategy :=
  s.strategyHistory

/-- `InMemoryStrategyStore.GetStrategyByID`: searches active then history. -/
def InMemoryStrategyStore.GetStrategyByID (s : InMemoryStrategyStore) (id : String) :
    Except StrategyError Strategy :=
  match s.activeStrategies.find? (fun st => st.id == id) with
  | some strat => .ok strat
  | none =>
    match s.strategyHistory.find? (fun st => st.id == id) with
    | some strat => .ok strat
    | none => .error ⟨.strategyNotFound, "Strategy not found: " ++ id⟩

/-- internal/models/tick.go: a market tick. -/
structure Tick where
  symbol : String
  price : ℚ
  volume : Int
  timestamp : Nat
deriving Repr, DecidableEq

/-- internal/strategy (martingale, part_002): `MartingaleStrategy` state.
The `runner` back-pointer is replaced by passing the trade store
explicitly; `currentTrade` is the value of the Go `*models.Trade` the
executor holds (in the single-executor runs the claims quantify over, the
store never mutates a trade while the executor still holds it, so the
snapshot agrees with the pointer). The mutex is a no-op in this sequential
embedding. -/
structure MartingaleStrategy where
  symbol : String
  basePosition : ℚ
  takeProfit : ℚ
  maxPositions : Nat
  currentTrade : Option Trade
  positionCount : Nat
  currentSize : ℚ
deriving Repr, DecidableEq

/-- `NewMartingaleStrategy`: extracts and validates the four parameters.
Go casts `max_positions` with `int(...)`, which for values `≥ 1` is the
floor. -/
def NewMartingaleStrategy (params : Params) : Except String MartingaleStrategy :=
  match params.getString "symbol" with
  | none => .error "invalid or missing symbol parameter"
  | some symbol =>
    if symbol == "" then .error "invalid or missing symbol parameter"
    else
      match params.getNumber "base_position" with
      | none => .error "invalid or missing base_position parameter"
      | some basePosition =>
        if basePosition ≤ 0 then .error "invalid or missing base_position parameter"
        else
          match params.getNumber "take_profit" with
          | none => .error "invalid or missing take_profit parameter"
          | some takeProfit =>
            if takeProfit ≤ 0 then .error "invalid or missing take_profit parameter"
            else
              match params.getNumber "max_positions" with
              | none => .error "invalid or missing max_positions parameter"
              | some maxPositions =>
                if maxPositions < 1 then .error "invalid or missing max_positions parameter"
                else
                  .ok { symbol := symbol
                        basePosition := basePosition
                        takeProfit := takeProfit
                        maxPositions := maxPositions.floor.toNat
                        currentTrade := none
                        positionCount := 0
                        currentSize := basePosition }

/-- `MartingaleStrategy.validateTick`. A `none` tick models the Go `nil`
pointer. NOTE (source): a tick for another symbol returns `nil` ("Not an
error, just ignore other symbols"), so `ProcessTick` does NOT stop on it;
the price check only runs for the configured symbol. -/
def MartingaleStrategy.validateTick (s : MartingaleStrategy) (tick? : Option Tick) :
    Except String Unit :=
  match tick? with
  | none => .error "received nil tick"
  | some t =>
    if t.symbol ≠ s.symbol then .ok ()
    else if t.price ≤ 0 then .error ("invalid tick price: " ++ toString t.price)
    else .ok ()

/-- `MartingaleStrategy.validateCurrentTrade`. -/
def MartingaleStrategy.validateCurrentTrade (s : MartingaleStrategy) : Except String Unit :=
  match s.currentTrade with
  | none => .error "current trade is nil"
  | some tr =>
    if tr.entryPrice ≤ 0 then .error "invalid entry price"
    else if tr.exitTime.isSome then .error "trade already closed"
    else .ok ()

/-- `MartingaleStrategy.resetPosition`. -/
def MartingaleStrategy.resetPosition (s : MartingaleStrategy) : MartingaleStrategy :=
  { s with currentTrade := none, currentSize := s.basePosition, positionCount := 0 }

/-- The `maxSize` loop at the top of `enterPosition`: `basePosition`
doubled `maxPositions` times. -/
def MartingaleStrategy.maxAllowedSize (s : MartingaleStrategy) : ℚ :=
  (List.range s.maxPositions).foldl (fun acc _ => acc * 2) s.basePosition

/-- `MartingaleStrategy.enterPosition`: capacity check, quantity check,
then buy via the runner (`tradeStore.CreateTrade`). Returns the Go error
result together with the updated executor state and trade store. -/
def MartingaleStrategy.enterPosition (s : MartingaleStrategy) (store : InMemoryTradeStore)
    (tick : Tick) (now : Nat) :
    Except String Unit × MartingaleStrategy × InMemoryTradeStore :=
  if s.currentSize > s.maxAllowedSize then
    (.error "position size exceeds maximum allowed", s, store)
  else
    let quantity := s.currentSize / tick.price
    if quantity ≤ 0 then
      (.error "invalid quantity calculated", s, store)
    else
      match store.CreateTrade s.symbol tick.price now with
      | .error e => (.error ("failed to execute buy: " ++ e.message), s, store)
      | .ok (trade, store') =>
        (.ok (),
         { s with currentTrade := some trade, positionCount := s.positionCount + 1 },
         store')

/-- `MartingaleStrategy.handleTakeProfit`: sell via the runner
(`tradeStore.CloseTrade`) then reset for the next cycle. The computed
profit is only logged. The `none` branch mirrors the Go nil dereference
and is unreachable from `ProcessTick`. -/
def MartingaleStrategy.handleTakeProfit (s : MartingaleStrategy) (store : InMemoryTradeStore)
    (now : Nat) : Except String Unit × MartingaleStrategy × InMemoryTradeStore :=
  match s.currentTrade with
  | none => (.error "current trade is nil", s, store)
  | some tr =>
    match store.CloseTrade tr.id now with
    | .error e => (.error ("failed to execute take profit sell: " ++ e.message), s, store)
    | .ok (_, store') => (.ok (), s.resetPosition, store')

/-- `MartingaleStrategy.handleLoss`: sell, then double the size if
`positionCount < maxPositions`, otherwise reset size and count; either way
clear the trade. The computed loss is only logged. -/
def MartingaleStrategy.handleLoss (s : MartingaleStrategy) (store : InMemoryTradeStore)
    (now : Nat) : Except String Unit × MartingaleStrategy × InMemoryTradeStore :=
  match s.currentTrade with
  | none => (.error "current trade is nil", s, store)
  | some tr =>
    match store.CloseTrade tr.id now with
    | .error e => (.error ("failed to execute loss sell: " ++ e.message), s, store)
    | .ok (_, store') =>
      if s.positionCount < s.maxPositions then
        (.ok (), { s with currentSize := s.currentSize * 2, currentTrade := none }, store')
      else
        (.ok (),
         { s with currentSize := s.basePosition, positionCount := 0, currentTrade := none },
         store')

/-- `MartingaleStrategy.ProcessTick`: validate the tick, then either enter
a position (no current trade) or check the current trade for take
profit / loss exit. The `none` inner branch is unreachable because
`validateTick` rejects `nil` ticks. -/
def MartingaleStrategy.ProcessTick (s : MartingaleStrategy) (store : InMemoryTradeStore)
    (tick? : Option Tick) (now : Nat) :
    Except String Unit × MartingaleStrategy × InMemoryTradeStore :=
  match s.validateTick tick? with
  | .error e => (.error e, s, store)
  | .ok _ =>
    match tick? with
    | none => (.error "received nil tick", s, store)
    | some tick =>
      match s.currentTrade with
      | none => s.enterPosition store tick now
      | some tr =>
        match s.validateCurrentTrade with
        | .error _ => (.ok (), s.resetPosition, store)
        | .ok _ =>
          let entryPrice := tr.entryPrice
          let targetPrice := entryPrice * (1 + s.takeProfit / 100)
          if tick.price ≥ targetPrice then s.handleTakeProfit store now
          else if tick.price < entryPrice then s.handleLoss store now
          else (.ok (), s, store)

/-- internal/strategy/repeat.go: `RepeatStrategy` state. -/
structure RepeatStrategy where
  symbol : String
  exitPrice : ℚ
  currentTrade : Option Trade
deriving Repr, DecidableEq

/-- `NewRepeatStrategy`: extracts and validates `symbol` and `exit_price`. -/
def NewRepeatStrategy (params : Params) : Except String RepeatStrategy :=
  match params.getString "symbol" with
  | none => .error "invalid or missing symbol parameter"
  | some symbol =>
    if symbol == "" then .error "invalid or missing symbol parameter"
    else
      match params.getNumber "exit_price" with
      | none => .error "invalid or missing exit_price parameter"
      | some exitPrice =>
        if exitPrice ≤ 0 then .error "invalid or missing exit_price parameter"
        else .ok { symbol := symbol, exitPrice := exitPrice, currentTrade := none }

/-- internal/strategy/executor.go: the `StrategyExecutor` capability,
modelled as the closed set of registered kinds. -/
inductive StrategyExecutor
  | martingale (s : MartingaleStrategy)
  | repeating (s : RepeatStrategy)
deriving Repr, DecidableEq

/-- `Registry.Create` on the default registry: the `init` functions
register "martingale" and "repeat"; any other kind is unknown. -/
def registryCreate (name : String) (params : Params) : Except String StrategyExecutor :=
  if name == "martingale" then (NewMartingaleStrategy params).map .martingale
  else if name == "repeat" then (NewRepeatStrategy params).map .repeating
  else .error ("unknown strategy type: " ++ name)

/-- internal/strategy/runner.go: a `runningJob`. The buffered error
channel is modelled as the list of errors sent on it; the done/cancel
signals have no observable state in this embedding. -/
structure RunningJob where
  errChan : List String
deriving Repr, DecidableEq

/-- internal/strategy/runner.go: `DefaultRunner` (the stores it points to
are passed explicitly where needed). -/
structure DefaultRunner where
  runningJobs : List (String × RunningJob)
deriving Repr, DecidableEq

/-- `DefaultRunner.Start`: rejects a duplicate id, otherwise records the
job and returns `nil`. Executor creation happens later, inside the
`runStrategy` goroutine (see `runStrategyCreateStep`), so `Start` itself
never consults the factory registry. -/
def DefaultRunner.Start (r : DefaultRunner) (strat : Strategy) : Except String DefaultRunner :=
  if (r.runningJobs.lookup strat.id).isSome then
    .error ("strategy already running: " ++ strat.id)
  else
    .ok { runningJobs := r.runningJobs ++ [(strat.id, { errChan := [] })] }

/-- First step of the `runStrategy` goroutine: create the executor via the
default registry; on failure the error is sent to the job's error channel
and the goroutine returns (the job stays in `runningJobs`: `isCriticalError`
is always `false`, so `handleErrors` never removes it). -/
def runStrategyCreateStep (strat : Strategy) (job : RunningJob) :
    RunningJob × Option StrategyExecutor :=
  match registryCreate strat.name strat.params with
  | .error e =>
    ({ job with errChan := job.errChan ++ ["failed to create strategy executor: " ++ e] }, none)
  | .ok ex => (job, some ex)

/-- Payloads carried by hub messages (Go `interface{}`), restricted to the
shapes the handlers actually produce. -/
inductive Payload
  | tickData (t : Tick)
  | tradeList (l : List Trade)
  | strategyList (l : List Strategy)
  | unsubscribeAck (subscribeId : String) (status : String)
  | subscribeAck (subscribeId : String) (msgType : String) (status : String)
  | errorText (msg : String)
deriving Repr, DecidableEq

/-- internal/websocket/hub.go: `Message{Type, SubscribeID, Payload}`
(`msgType` stands for the Go field `Type`). -/
structure Message where
  msgType : String
  subscribeId : String
  payload : Payload
deriving Repr, DecidableEq

/-- Insertion into a Go `map[string]struct{}` used as a set, modelled on a
list without duplicates. -/
def insertSub (subs : List String) (id : String) : List String :=
  if subs.contains id then subs else subs ++ [id]

/-- internal/handler (part_008): `TickHandler` subscription state. -/
structure TickHandler where
  subs : List String
deriving Repr, DecidableEq

/-- `TickHandler.HandleSubscribe`: records the id and returns `nil`. It
broadcasts NOTHING here — the subscriber first hears from the periodic
`processTick` loop. Result: (error result, new handler, messages handed to
the hub). -/
def TickHandler.HandleSubscribe (h : TickHandler) (subscribeID : String) (options : Params) :
    Except String Unit × TickHandler × List Message :=
  (.ok (), { subs := insertSub h.subs subscribeID }, [])

/-- `TickHandler.HandleUnsubscribe` (error result always `nil`). -/
def TickHandler.HandleUnsubscribe (h : TickHandler) (subscribeID : String) : TickHandler :=
  { subs := h.subs.filter (fun x => x != subscribeID) }

/-- `TickHandler.processTick` on one pulled tick: one message per
subscriber. -/
def TickHandler.processTick (h : TickHandler) (tick : Tick) : List Message :=
  h.subs.map (fun subID => ⟨"ticks", subID, .tickData tick⟩)

/-- internal/handler/trade_handler.go: `OpenPositionsHandler` subscription
state (the store it reads is passed explicitly). -/
structure OpenPositionsHandler where
  subs : List String
deriving Repr, DecidableEq

/-- `OpenPositionsHandler.HandleSubscribe`: records the id and immediately
hands the hub one `open_positions` message with the current open-trades
snapshot. -/
def OpenPositionsHandler.HandleSubscribe (h : OpenPositionsHandler)
    (store : InMemoryTradeStore) (subscribeID : String) (options : Params) :
    Except String Unit × OpenPositionsHandler × List Message :=
  (.ok (), { subs := insertSub h.subs subscribeID },
   [⟨"open_positions", subscribeID, .tradeList store.GetOpenTrades⟩])

/-- `OpenPositionsHandler.HandleUnsubscribe` (error result always `nil`). -/
def OpenPositionsHandler.HandleUnsubscribe (h : OpenPositionsHandler) (subscribeID : String) :
    OpenPositionsHandler :=
  { subs := h.subs.filter (fun x => x != subscribeID) }

/-- internal/handler/trade_handler.go: `TradeHistoryHandler` subscription
state. -/
structure TradeHistoryHandler where
  subs : List String
deriving Repr, DecidableEq

/-- `TradeHistoryHandler.HandleSubscribe`: records the id and immediately
hands the hub one `trade_history` message with the current history
snapshot. -/
def TradeHistoryHandler.HandleSubscribe (h : TradeHistoryHandler)
    (store : InMemoryTradeStore) (subscribeID : String) (options : Params) :
    Except String Unit × TradeHistoryHandler × List Message :=
  (.ok (), { subs := insertSub h.subs subscribeID },
   [⟨"trade_history", subscribeID, .tradeList store.GetTradeHistory⟩])

/-- `TradeHistoryHandler.HandleUnsubscribe` (error result always `nil`). -/
def TradeHistoryHandler.HandleUnsubscribe (h : TradeHistoryHandler) (subscribeID : String) :
    TradeHistoryHandler :=
  { subs := h.subs.filter (fun x => x != subscribeID) }

/-- internal/handler (part_007): `ActiveStrategiesHandler` subscription
state. -/
structure ActiveStrategiesHandler where
  subs : List String
deriving Repr, DecidableEq

/-- `ActiveStrategiesHandler.HandleSubscribe`: records the id and
immediately hands the hub one `active_strategies` message with the current
active snapshot. -/
def ActiveStrategiesHandler.HandleSubscribe (h : ActiveStrategiesHandler)
    (store : InMemoryStrategyStore) (subscribeID : String) (options : Params) :
    Except String Unit × ActiveStrategiesHandler × List Message :=
  (.ok (), { subs := insertSub h.subs subscribeID },
   [⟨"active_strategies", subscribeID, .strategyList store.GetActiveStrategies⟩])

/-- `ActiveStrategiesHandler.HandleUnsubscribe` (error result always
`nil`). -/
def ActiveStrategiesHandler.HandleUnsubscribe (h : ActiveStrategiesHandler)
    (subscribeID : String) : ActiveStrategiesHandler :=
  { subs := h.subs.filter (fun x => x != subscribeID) }

/-- internal/handler (part_007): `StrategyHistoryHandler` subscription
state. -/
structure StrategyHistoryHandler where
  subs : List String
deriving Repr, DecidableEq

/-- `StrategyHistoryHandler.HandleSubscribe`: records the id and
immediately hands the hub one `strategies_history` message with the
current history snapshot. -/
def StrategyHistoryHandler.HandleSubscribe (h : StrategyHistoryHandler)
    (store : InMemoryStrategyStore) (subscribeID : String) (options : Params) :
    Except String Unit × StrategyHistoryHandler × List Message :=
  (.ok (), { subs := insertSub h.subs subscribeID },
   [⟨"strategies_history", subscribeID, .strategyList store.GetStrategyHistory⟩])

/-- `StrategyHistoryHandler.HandleUnsubscribe` (error result always
`nil`). -/
def StrategyHistoryHandler.HandleUnsubscribe (h : StrategyHistoryHandler)
    (subscribeID : String) : StrategyHistoryHandler :=
  { subs := h.subs.filter (fun x => x != subscribeID) }

/-- internal/handler/message_handler.go: the message-type registry with the
five handlers main.go registers. -/
structure HandlerRegistry where
  ticks : TickHandler
  openPositions : OpenPositionsHandler
  tradeHistory : TradeHistoryHandler
  activeStrategies : ActiveStrategiesHandler
  strategiesHistory : StrategyHistoryHandler
deriving Repr, DecidableEq

/-- `Registry.HandleUnsubscribe`: routes by type name; unknown types
error. -/
def HandlerRegistry.HandleUnsubscribe (r : HandlerRegistry) (msgType : String)
    (subscribeID : String) : Except String HandlerRegistry :=
  if msgType == "ticks" then
    .ok { r with ticks := r.ticks.HandleUnsubscribe subscribeID }
  else if msgType == "open_positions" then
    .ok { r with openPositions := r.openPositions.HandleUnsubscribe subscribeID }
  else if msgType == "trade_history" then
    .ok { r with tradeHistory := r.tradeHistory.HandleUnsubscribe subscribeID }
  else if msgType == "active_strategies" then
    .ok { r with activeStrategies := r.activeStrategies.HandleUnsubscribe subscribeID }
  else if msgType == "strategies_history" then
    .ok { r with strategiesHistory := r.strategiesHistory.HandleUnsubscribe subscribeID }
  else
    .error ("no handler registered for message type " ++ msgType)

/-- internal/websocket/client.go: the per-client subscription tables
(`subscriptions: msgType → subscribe ids`, `subscriptionType:
subscribe id → msgType`). The connection and send channel are modelled by
the list of messages the handler emits. -/
structure Client where
  subscriptions : List (String × List String)
  subscriptionType : List (String × String)
deriving Repr, DecidableEq

/-- `Client.isSubscribed`. -/
def Client.isSubscribed (c : Client) (msgType subscribeID : String) : Bool :=
  match c.subscriptions.lookup msgType with
  | some ids => ids.contains subscribeID
  | none => false

/-- `Client.removeSubscription`: drop the id from the type's set; drop the
type entirely when its set becomes empty. -/
def Client.removeSubscription (c : Client) (msgType subscribeID : String) : Client :=
  match c.subscriptions.lookup msgType with
  | none => c
  | some ids =>
    let ids' := ids.filter (fun x => x != subscribeID)
    if ids'.isEmpty then
      { c with subscriptions := c.subscriptions.filter (fun p => p.1 != msgType) }
    else
      { c with subscriptions :=
          c.subscriptions.filter (fun p => p.1 != msgType) ++ [(msgType, ids')] }

/-- `Client.sendError` envelope. -/
def clientErrorMessage (errMsg : String) : Message :=
  ⟨"error", "", .errorText errMsg⟩

/-- `Client.handleMessage`, `unsubscribe` branch: look the id up in the
per-client table; if absent, reply "Invalid subscription ID" and stop;
otherwise delegate to the registry, drop the local entries and reply
`unsubscribe_response`. Result: (client, registry, messages sent to this
client, log of `registry.HandleUnsubscribe` invocations). -/
def Client.handleUnsubscribeMessage (c : Client) (reg : HandlerRegistry)
    (subscribeId : String) :
    Client × HandlerRegistry × List Message × List (String × String) :=
  match c.subscriptionType.lookup subscribeId with
  | none => (c, reg, [clientErrorMessage "Invalid subscription ID"], [])
  | some msgType =>
    match reg.HandleUnsubscribe msgType subscribeId with
    | .error e =>
      (c, reg, [clientErrorMessage ("Unsubscribe failed: " ++ e)], [(msgType, subscribeId)])
    | .ok reg' =>
      let c1 := c.removeSubscription msgType subscribeId
      let c2 := { c1 with
        subscriptionType := c1.subscriptionType.filter (fun p => p.1 != subscribeId) }
      (c2, reg',
       [⟨"unsubscribe_response", "", .unsubscribeAck subscribeId "success"⟩],
       [(msgType, subscribeId)])

/-- The public trade-store operations (buy / sell as issued by request
handlers and strategy executors). -/
inductive TradeOp
  | createOp (symbol : String) (entryPrice : ℚ) (now : Nat)
  | closeOp (id : String) (now : Nat)
deriving Repr, DecidableEq

/-- Apply one public operation; a failing close leaves the store
unchanged. -/
def InMemoryTradeStore.applyOp (s : InMemoryTradeStore) : TradeOp → InMemoryTradeStore
  | .createOp sym p now =>
    match s.CreateTrade sym p now with
    | .ok (_, s') => s'
    | .error _ => s
  | .closeOp id now =>
    match s.CloseTrade id now with
    | .ok (_, s') => s'
    | .error _ => s

/-- Stores reachable through the public operations from a fresh store. -/
def runTradeOps (ops : List TradeOp) : InMemoryTradeStore :=
  ops.foldl InMemoryTradeStore.applyOp emptyTradeStore

/-- Store invariant: every trade in the open partition has no exit time
set (closing removes the trade from the open set in the same step that
sets its exit time). -/
def openAllUnclosed (s : InMemoryTradeStore) : Prop :=
  ∀ tr ∈ s.openTrades, tr.exitTime = none

/-- Feed a sequence of ticks (with their arrival times) serially through
`ProcessTick`, keeping executor and store. Error results are reported to
the runner and change nothing beyond what `ProcessTick` already did. -/
def runTicks (s : MartingaleStrategy) (store : InMemoryTradeStore)
    (ticks : List (Tick × Nat)) : MartingaleStrategy × InMemoryTradeStore :=
  ticks.foldl (fun p tn => (p.1.ProcessTick p.2 (some tn.1) tn.2).2) (s, store)

/-- Inductive invariant of the Martingale executor with configured base
size `base` and position cap `N`: the configuration is constant; while
holding a trade, `1 ≤ positionCount ≤ N` and
`currentSize = base * 2 ^ (positionCount - 1)`; between trades, either
the executor just realised a loss below the cap
(`positionCount < N`, `currentSize = base * 2 ^ positionCount`) or it is
at a fresh cycle (`positionCount = 0`, `currentSize = base`). -/
def MartingaleInv (base : ℚ) (N : Nat) (s : MartingaleStrategy) : Prop :=
  s.basePosition = base ∧ s.maxPositions = N ∧
  (match s.currentTrade with
   | some _ => 1 ≤ s.positionCount ∧ s.positionCount ≤ N ∧
               s.currentSize = base * 2 ^ (s.positionCount - 1)
   | none => (s.positionCount < N ∧ s.currentSize = base * 2 ^ s.positionCount) ∨
             (s.positionCount = 0 ∧ s.currentSize = base))

/-! ## Theorems -/

/-! ### Helper lemmas -/

/-- Deleting a key from an association structure (Go `delete(m, id)`,
modelled as `filter`) makes a subsequent key lookup via `find?` fail. -/
theorem find?_key_filter_ne {α : Type} (key : α → String) (l : List α) (id : String) :
    (l.filter (fun x => key x != id)).find? (fun x => key x == id) = none := by
  induction l with
  | nil => rfl
  | cons a l ih =>
    by_cases h : key a = id
    · simp [List.filter_cons, h, ih]
    · simp [List.filter_cons, h, List.find?_cons, ih]

/-- Appending a fresh binding to an association list whose lookup for that
key fails makes the lookup return the new binding. -/
theorem lookup_append_fresh {β : Type} (l : List (String × β)) (k : String) (v : β)
    (h : l.lookup k = none) : (l ++ [(k, v)]).lookup k = some v := by
  induction l with
  | nil => simp [List.lookup]
  | cons a l ih =>
    obtain ⟨ka, va⟩ := a
    rw [List.cons_append]
    cases hk : k == ka with
    | false =>
      simp only [List.lookup, hk] at h ⊢
      exact ih h
    | true =>
      simp only [List.lookup, hk] at h
      exact absurd h (by simp)

/-- The id just recorded via `insertSub` is a member of the resulting
set. -/
theorem mem_insertSub (l : List String) (id : String) : id ∈ insertSub l id := by
  unfold insertSub
  by_cases h : id ∈ l <;> simp [h]

/-- A successful `CloseTrade` deletes the id from the open partition. -/
theorem closeTrade_ok_openTrades (s : InMemoryTradeStore) (id : String) (now : Nat)
    (tr : Trade) (s' : InMemoryTradeStore) (h : s.CloseTrade id now = .ok (tr, s')) :
    s'.openTrades = s.openTrades.filter (fun t => t.id != id) := by
  unfold InMemoryTradeStore.CloseTrade at h
  split at h
  · exact absurd h (by simp)
  · split at h
    · exact absurd h (by simp)
    · simp only [Except.ok.injEq, Prod.mk.injEq] at h
      obtain ⟨-, h2⟩ := h
      rw [← h2]

/-- Each public operation preserves the open-partition invariant. -/
theorem applyOp_openAllUnclosed (s : InMemoryTradeStore) (op : TradeOp)
    (h : openAllUnclosed s) : openAllUnclosed (s.applyOp op) := by
  cases op with
  | createOp sym p now =>
    intro tr htr
    simp only [InMemoryTradeStore.applyOp, InMemoryTradeStore.CreateTrade] at htr
    rcases List.mem_append.mp htr with h1 | h1
    · exact h tr h1
    · rw [List.mem_singleton.mp h1]
  | closeOp id now =>
    intro tr htr
    unfold InMemoryTradeStore.applyOp at htr
    cases hC : s.CloseTrade id now with
    | error e =>
      simp only [hC] at htr
      exact h tr htr
    | ok p =>
      obtain ⟨t, s'⟩ := p
      simp only [hC] at htr
      rw [closeTrade_ok_openTrades s id now t s' hC] at htr
      exact h tr (List.mem_of_mem_filter htr)

/-- The invariant holds for every reachable store. -/
theorem runTradeOps_openAllUnclosed (ops : List TradeOp) :
    openAllUnclosed (runTradeOps ops) := by
  suffices h : ∀ s, openAllUnclosed s →
      openAllUnclosed (ops.foldl InMemoryTradeStore.applyOp s) by
    refine h emptyTradeStore ?_
    intro tr htr
    cases htr
  induction ops with
  | nil => exact fun s hs => hs
  | cons op ops ih => exact fun s hs => ih _ (applyOp_openAllUnclosed s op hs)

/-- `resetPosition` restores the fresh-cycle case of the invariant. -/
theorem martingaleInv_reset (base : ℚ) (N : Nat) (s : MartingaleStrategy)
    (h : MartingaleInv base N s) : MartingaleInv base N s.resetPosition := by
  obtain ⟨hb, hM, -⟩ := h
  exact ⟨hb, hM, Or.inr ⟨rfl, hb⟩⟩

/-- `enterPosition` preserves the invariant (both failure branches leave
the state unchanged; a successful buy moves to the holding case). -/
theorem martingaleInv_enter (base : ℚ) (N : Nat) (hN : 1 ≤ N) (s : MartingaleStrategy)
    (store : InMemoryTradeStore) (t : Tick) (now : Nat)
    (hnone : s.currentTrade = none) (h : MartingaleInv base N s) :
    MartingaleInv base N ((s.enterPosition store t now).2.1) := by
  obtain ⟨hb, hM, hcase⟩ := h
  rw [hnone] at hcase
  unfold MartingaleStrategy.enterPosition
  simp only [InMemoryTradeStore.CreateTrade]
  split
  · exact ⟨hb, hM, by rw [hnone]; exact hcase⟩
  · split
    · exact ⟨hb, hM, by rw [hnone]; exact hcase⟩
    · refine ⟨hb, hM, ?_⟩
      show 1 ≤ s.positionCount + 1 ∧ s.positionCount + 1 ≤ N ∧
        s.currentSize = base * 2 ^ (s.positionCount + 1 - 1)
      rcases hcase with ⟨hlt, hsz⟩ | ⟨hc0, hsz⟩
      · exact ⟨by omega, by omega, by simpa using hsz⟩
      · exact ⟨by omega, by omega, by simpa [hc0] using hsz⟩

/-- `handleTakeProfit` preserves the invariant (failed sell: unchanged;
successful sell: reset). -/
theorem martingaleInv_tp (base : ℚ) (N : Nat) (s : MartingaleStrategy)
    (store : InMemoryTradeStore) (now : Nat) (h : MartingaleInv base N s) :
    MartingaleInv base N ((s.handleTakeProfit store now).2.1) := by
  unfold MartingaleStrategy.handleTakeProfit
  cases htr : s.currentTrade with
  | none => simp only [htr]; exact h
  | some tr =>
    simp only [htr]
    cases hC : store.CloseTrade tr.id now with
    | error e => simp only [hC]; exact h
    | ok p =>
      obtain ⟨a, st'⟩ := p
      simp only [hC]
      exact martingaleInv_reset base N s h

/-- `handleLoss` preserves the invariant: below the cap the size doubles
(loss case of the invariant); at the cap size and count reset. -/
theorem martingaleInv_loss (base : ℚ) (N : Nat) (s : MartingaleStrategy)
    (store : InMemoryTradeStore) (now : Nat) (tr : Trade)
    (htr : s.currentTrade = some tr) (h : MartingaleInv base N s) :
    MartingaleInv base N ((s.handleLoss store now).2.1) := by
  obtain ⟨hb, hM, hcase⟩ := h
  rw [htr] at hcase
  obtain ⟨h1, h2, h3⟩ := hcase
  unfold MartingaleStrategy.handleLoss
  simp only [htr]
  cases hC : store.CloseTrade tr.id now with
  | error e =>
    simp only [hC]
    exact ⟨hb, hM, by rw [htr]; exact ⟨h1, h2, h3⟩⟩
  | ok p =>
    obtain ⟨a, st'⟩ := p
    simp only [hC]
    by_cases hcnt : s.positionCount < s.maxPositions
    · rw [if_pos hcnt]
      refine ⟨hb, hM, Or.inl ?_⟩
      show s.positionCount < N ∧ s.currentSize * 2 = base * 2 ^ s.positionCount
      refine ⟨by omega, ?_⟩
      rw [h3, mul_assoc, ← pow_succ]
      have hpc : s.positionCount - 1 + 1 = s.positionCount := by omega
      rw [hpc]
    · rw [if_neg hcnt]
      refine ⟨hb, hM, Or.inr ?_⟩
      show (0 : Nat) = 0 ∧ s.basePosition = base
      exact ⟨rfl, hb⟩

/-- One `ProcessTick` step preserves the invariant, for every tick and
every store. -/
theorem processTick_preserves_inv (base : ℚ) (N : Nat) (hN : 1 ≤ N)
    (s : MartingaleStrategy) (store : InMemoryTradeStore) (t? : Option Tick) (now : Nat)
    (h : MartingaleInv base N s) :
    MartingaleInv base N ((s.ProcessTick store t? now).2.1) := by
  unfold MartingaleStrategy.ProcessTick
  cases hvt : s.validateTick t? with
  | error e => simp only [hvt]; exact h
  | ok u =>
    simp only [hvt]
    cases t? with
    | none => exact h
    | some tick =>
      cases htr : s.currentTrade with
      | none =>
        simp only [htr]
        exact martingaleInv_enter base N hN s store tick now htr h
      | some tr =>
        simp only [htr]
        cases hvc : s.validateCurrentTrade with
        | error e =>
          simp only [hvc]
          exact martingaleInv_reset base N s h
        | ok u2 =>
          simp only [hvc]
          by_cases hge : tick.price ≥ tr.entryPrice * (1 + s.takeProfit / 100)
          · rw [if_pos hge]
            exact martingaleInv_tp base N s store now h
          · rw [if_neg hge]
            by_cases hlt : tick.price < tr.entryPrice
            · rw [if_pos hlt]
              exact martingaleInv_loss base N s store now tr htr h
            · rw [if_neg hlt]
              exact h

/-- The invariant is preserved by any serially processed tick stream. -/
theorem runTicks_preserves_inv (base : ℚ) (N : Nat) (hN : 1 ≤ N)
    (ticks : List (Tick × Nat)) :
    ∀ s store, MartingaleInv base N s → MartingaleInv base N (runTicks s store ticks).1 := by
  induction ticks with
  | nil => exact fun s store h => h
  | cons tn ts ih =>
    intro s store h
    exact ih _ _ (processTick_preserves_inv base N hN s store (some tn.1) tn.2 h)

/-! ### Claim theorems -/

/-- C1. The claim says a tick whose symbol differs from the configured
symbol is ignored (no buy, no state change, no error). The code violates
this: `validateTick` returns `nil` for a foreign symbol ("just ignore
other symbols"), but `ProcessTick` only stops on a non-nil error, so it
falls through and buys the configured symbol at the foreign tick's price.
Failing input: executor for "AAPL" (base 100, tp 1, max 3, no position),
tick GOOGL@50 — the executor opens an AAPL trade at 50 and increments its
position count. The second conjunct checks the part of the claim the code
does satisfy: a matching-symbol tick with price ≤ 0 yields a recoverable
error and leaves executor and store unchanged. -/
theorem martingale_wrong_symbol_not_ignored :
    MartingaleStrategy.ProcessTick ⟨"AAPL", 100, 1, 3, none, 0, 100⟩ emptyTradeStore
        (some ⟨"GOOGL", 50, 0, 0⟩) 0
      = (.ok (), ⟨"AAPL", 100, 1, 3, some ⟨"trade-0", "AAPL", 50, 0, 0, none⟩, 1, 100⟩,
         ⟨[⟨"trade-0", "AAPL", 50, 0, 0, none⟩], [], 1⟩) ∧
    MartingaleStrategy.ProcessTick ⟨"AAPL", 100, 1, 3, none, 0, 100⟩ emptyTradeStore
        (some ⟨"AAPL", -1, 0, 0⟩) 0
      = (.error ("invalid tick price: " ++ toString (-1 : ℚ)),
         ⟨"AAPL", 100, 1, 3, none, 0, 100⟩, emptyTradeStore) := by
  constructor
  · simp only [MartingaleStrategy.ProcessTick, MartingaleStrategy.validateTick,
      MartingaleStrategy.enterPosition, MartingaleStrategy.maxAllowedSize,
      InMemoryTradeStore.CreateTrade, emptyTradeStore, List.range_succ, List.range_zero,
      List.foldl_append, List.foldl_cons, List.foldl_nil]
    norm_num
    rfl
  · simp only [MartingaleStrategy.ProcessTick, MartingaleStrategy.validateTick]
    norm_num

/-- C2 counterexample. A strategy is created and stopped once; the second
`StopStrategy` on the same id returns `STRATEGY_NOT_FOUND`, not
`ALREADY_STOPPED` (the record has moved to history and the not-found check
on the active map fires first), refuting both halves of the claim: the
subsequent stop does not fail `ALREADY_STOPPED`, and `NotFound` is
returned for an id that the store does know (it is in history). -/
theorem stop_strategy_second_stop_counterexample :
    InMemoryStrategyStore.StopStrategy
        ⟨[⟨"martingale-0", "martingale", [], 0, none, "active"⟩], [], 1⟩ "martingale-0" 5
      = .ok (⟨"martingale-0", "martingale", [], 0, some 5, "stopped"⟩,
             ⟨[], [⟨"martingale-0", "martingale", [], 0, some 5, "stopped"⟩], 1⟩) ∧
    InMemoryStrategyStore.StopStrategy
        ⟨[], [⟨"martingale-0", "martingale", [], 0, some 5, "stopped"⟩], 1⟩ "martingale-0" 6
      = .error ⟨.strategyNotFound, "Strategy not found: martingale-0"⟩ ∧
    StrategyErrorCode.strategyNotFound ≠ StrategyErrorCode.alreadyStopped := by
  refine ⟨rfl, rfl, by decide⟩

/-- C3 counterexample. The ticks handler does not obey the
first-message-is-current-state rule: `TickHandler.HandleSubscribe` only
records the subscription and hands the hub no message at all (the claim
requires exactly one immediate message carrying the new subscribe id). -/
theorem tick_handler_no_initial_snapshot :
    ¬ ((TickHandler.HandleSubscribe ⟨[]⟩ "sub-1" []).2.2.length = 1) := by
  decide

/-- C4 counterexample. Starting a strategy of a kind unknown to the
factory registry: `DefaultRunner.Start` returns success and registers the
job — the factory failure is only produced later, inside the worker
goroutine, onto the job's error channel. This refutes the claim that the
start itself returns the failure and that no worker remains registered. -/
theorem runner_start_unknown_kind_counterexample :
    DefaultRunner.Start ⟨[]⟩ ⟨"nope-0", "nope", [], 0, none, "active"⟩
      = .ok ⟨[("nope-0", ⟨[]⟩)]⟩ ∧
    (runStrategyCreateStep ⟨"nope-0", "nope", [], 0, none, "active"⟩ ⟨[]⟩).1.errChan
      = ["failed to create strategy executor: unknown strategy type: nope"] := by
  constructor <;> rfl

/-- C5. The claim says creating a trade at entry price ≤ 0 is rejected and
nothing is inserted. Neither `CreateTrade` nor `HandleBuy` validates the
price (the declared `INVALID_ENTRY_PRICE` error code is never used), so
the call succeeds and the trade enters the open set. Failing input:
`CreateTrade("AAPL", -5)`. -/
theorem create_trade_accepts_nonpositive_price :
    emptyTradeStore.CreateTrade "AAPL" (-5) 0
      = .ok (⟨"trade-0", "AAPL", -5, 0, 0, none⟩,
             ⟨[⟨"trade-0", "AAPL", -5, 0, 0, none⟩], [], 1⟩) := by
  rfl

/-- C2 amended: once `StopStrategy` succeeds for an id, every subsequent
`StopStrategy` on that id fails with `STRATEGY_NOT_FOUND` — the record has
moved to history, so the active-map lookup fails before the
`ALREADY_STOPPED` check can fire. -/
theorem stop_strategy_second_returns_not_found (s s' : InMemoryStrategyStore) (st : Strategy)
    (id : String) (n1 n2 : Nat)
    (h : s.StopStrategy id n1 = .ok (st, s')) :
    s'.StopStrategy id n2 = .error ⟨.strategyNotFound, "Strategy not found: " ++ id⟩ := by
  unfold InMemoryStrategyStore.StopStrategy at h
  split at h
  · exact absurd h (by simp)
  · split at h
    · exact absurd h (by simp)
    · simp only [Except.ok.injEq, Prod.mk.injEq] at h
      obtain ⟨-, h2⟩ := h
      subst h2
      unfold InMemoryStrategyStore.StopStrategy
      simp only [find?_key_filter_ne]

/-- C2 witness: concrete application of
`stop_strategy_second_returns_not_found` to a store holding one active
strategy. -/
theorem stop_strategy_second_returns_not_found_witness :
    InMemoryStrategyStore.StopStrategy
        ⟨[], [⟨"martingale-7", "martingale", [], 0, some 5, "stopped"⟩], 1⟩ "martingale-7" 6
      = .error ⟨.strategyNotFound, "Strategy not found: martingale-7"⟩ :=
  stop_strategy_second_returns_not_found
    ⟨[⟨"martingale-7", "martingale", [], 0, none, "active"⟩], [], 1⟩
    ⟨[], [⟨"martingale-7", "martingale", [], 0, some 5, "stopped"⟩], 1⟩
    ⟨"martingale-7", "martingale", [], 0, some 5, "stopped"⟩ "martingale-7" 5 6 rfl

/-- C4 amended: when the factory rejects the strategy (unknown kind or bad
parameters), `DefaultRunner.Start` on a runner not already running that id
still returns success, leaves the job registered in `runningJobs`, and the
failure is only delivered later onto the job's error channel by the worker
goroutine (which then exits; the entry is never removed because all errors
are classified non-critical). -/
theorem runner_start_reports_factory_failure_async (r : DefaultRunner) (strat : Strategy)
    (e : String)
    (hnew : r.runningJobs.lookup strat.id = none)
    (hfact : registryCreate strat.name strat.params = .error e) :
    r.Start strat = .ok ⟨r.runningJobs ++ [(strat.id, ⟨[]⟩)]⟩ ∧
    (r.runningJobs ++ [(strat.id, (⟨[]⟩ : RunningJob))]).lookup strat.id = some ⟨[]⟩ ∧
    (runStrategyCreateStep strat ⟨[]⟩).1.errChan
      = ["failed to create strategy executor: " ++ e] ∧
    (runStrategyCreateStep strat ⟨[]⟩).2 = none := by
  refine ⟨?_, lookup_append_fresh _ _ _ hnew, ?_, ?_⟩
  · unfold DefaultRunner.Start
    rw [hnew]
    rfl
  · unfold runStrategyCreateStep
    rw [hfact]
    rfl
  · unfold runStrategyCreateStep
    rw [hfact]

/-- C4 witness: concrete application of
`runner_start_reports_factory_failure_async` to an idle runner and an
unknown strategy kind. -/
theorem runner_start_reports_factory_failure_async_witness :
    DefaultRunner.Start ⟨[]⟩ ⟨"nope-1", "nope", [], 0, none, "active"⟩
      = .ok ⟨[("nope-1", ⟨[]⟩)]⟩ ∧
    (([] : List (String × RunningJob)) ++ [("nope-1", (⟨[]⟩ : RunningJob))]).lookup "nope-1"
      = some ⟨[]⟩ ∧
    (runStrategyCreateStep ⟨"nope-1", "nope", [], 0, none, "active"⟩ ⟨[]⟩).1.errChan
      = ["failed to create strategy executor: " ++ "unknown strategy type: nope"] ∧
    (runStrategyCreateStep ⟨"nope-1", "nope", [], 0, none, "active"⟩ ⟨[]⟩).2 = none :=
  runner_start_reports_factory_failure_async ⟨[]⟩ ⟨"nope-1", "nope", [], 0, none, "active"⟩
    "unknown strategy type: nope" rfl rfl

/-- C3 amended: of the five registered type handlers, the four
snapshot handlers (`open_positions`, `trade_history`, `active_strategies`,
`strategies_history`) record the subscription and immediately hand the hub
exactly one message of their type carrying the new subscribe id and the
current full snapshot; the `ticks` handler only records the subscription
and hands the hub nothing (its subscriber first hears from the next
periodic tick). -/
theorem handle_subscribe_initial_snapshot (tstore : InMemoryTradeStore)
    (sstore : InMemoryStrategyStore) (th : TickHandler) (oph : OpenPositionsHandler)
    (thh : TradeHistoryHandler) (ash : ActiveStrategiesHandler)
    (shh : StrategyHistoryHandler) (sid : String) (opts : Params) :
    ((th.HandleSubscribe sid opts).2.2 = [] ∧
      sid ∈ (th.HandleSubscribe sid opts).2.1.subs) ∧
    ((oph.HandleSubscribe tstore sid opts).2.2
        = [⟨"open_positions", sid, .tradeList tstore.GetOpenTrades⟩] ∧
      sid ∈ (oph.HandleSubscribe tstore sid opts).2.1.subs) ∧
    ((thh.HandleSubscribe tstore sid opts).2.2
        = [⟨"trade_history", sid, .tradeList tstore.GetTradeHistory⟩] ∧
      sid ∈ (thh.HandleSubscribe tstore sid opts).2.1.subs) ∧
    ((ash.HandleSubscribe sstore sid opts).2.2
        = [⟨"active_strategies", sid, .strategyList sstore.GetActiveStrategies⟩] ∧
      sid ∈ (ash.HandleSubscribe sstore sid opts).2.1.subs) ∧
    ((shh.HandleSubscribe sstore sid opts).2.2
        = [⟨"strategies_history", sid, .strategyList sstore.GetStrategyHistory⟩] ∧
      sid ∈ (shh.HandleSubscribe sstore sid opts).2.1.subs) :=
  ⟨⟨rfl, mem_insertSub _ _⟩, ⟨rfl, mem_insertSub _ _⟩, ⟨rfl, mem_insertSub _ _⟩,
   ⟨rfl, mem_insertSub _ _⟩, ⟨rfl, mem_insertSub _ _⟩⟩

/-- C9: whenever `CloseTrade` succeeds, the returned (and stored) trade
carries `exit_price = entry_price + 1` and `exit_time = now` — the close
price is synthesized deterministically, not read from any market feed (no
market input reaches `CloseTrade`). -/
theorem close_trade_synthesizes_exit (s : InMemoryTradeStore) (id : String) (now : Nat)
    (tr : Trade) (s' : InMemoryTradeStore)
    (h : s.CloseTrade id now = .ok (tr, s')) :
    tr.exitPrice = tr.entryPrice + 1 ∧ tr.exitTime = some now ∧ tr ∈ s'.tradeHistory := by
  unfold InMemoryTradeStore.CloseTrade at h
  split at h
  · exact absurd h (by simp)
  · split at h
    · exact absurd h (by simp)
    · simp only [Except.ok.injEq, Prod.mk.injEq] at h
      obtain ⟨h1, h2⟩ := h
      subst h1
      subst h2
      refine ⟨rfl, rfl, ?_⟩
      simp

/-- C9 witness: concrete application of `close_trade_synthesizes_exit` to
a store with one open trade. -/
theorem close_trade_synthesizes_exit_witness :
    (⟨"trade-0", "AAPL", 100, 101, 0, some 7⟩ : Trade).exitPrice
        = (⟨"trade-0", "AAPL", 100, 101, 0, some 7⟩ : Trade).entryPrice + 1 ∧
    (⟨"trade-0", "AAPL", 100, 101, 0, some 7⟩ : Trade).exitTime = some 7 ∧
    (⟨"trade-0", "AAPL", 100, 101, 0, some 7⟩ : Trade)
        ∈ (⟨[], [⟨"trade-0", "AAPL", 100, 101, 0, some 7⟩], 1⟩ : InMemoryTradeStore).tradeHistory :=
  close_trade_synthesizes_exit ⟨[⟨"trade-0", "AAPL", 100, 0, 0, none⟩], [], 1⟩ "trade-0" 7
    ⟨"trade-0", "AAPL", 100, 101, 0, some 7⟩ ⟨[], [⟨"trade-0", "AAPL", 100, 101, 0, some 7⟩], 1⟩
    (by norm_num [InMemoryTradeStore.CloseTrade, List.find?])

/-- C10: an inbound `unsubscribe` whose subscribe id is not in this
client's per-client table (never issued to it, already removed, or owned
by another client) is answered with the "Invalid subscription ID" error
envelope; the registry's `HandleUnsubscribe` is never invoked (empty call
log), and the client tables, the registry, and all handler subscription
state are left unchanged. -/
theorem client_unknown_unsubscribe_rejected (c : Client) (reg : HandlerRegistry)
    (sid : String)
    (h : c.subscriptionType.lookup sid = none) :
    c.handleUnsubscribeMessage reg sid
      = (c, reg, [clientErrorMessage "Invalid subscription ID"], []) := by
  unfold Client.handleUnsubscribeMessage
  rw [h]

/-- C10 witness: concrete application of
`client_unknown_unsubscribe_rejected` to a fresh client. -/
theorem client_unknown_unsubscribe_rejected_witness :
    Client.handleUnsubscribeMessage ⟨[], []⟩ ⟨⟨[]⟩, ⟨[]⟩, ⟨[]⟩, ⟨[]⟩, ⟨[]⟩⟩ "sub-unknown"
      = (⟨[], []⟩, ⟨⟨[]⟩, ⟨[]⟩, ⟨[]⟩, ⟨[]⟩, ⟨[]⟩⟩,
         [clientErrorMessage "Invalid subscription ID"], []) :=
  client_unknown_unsubscribe_rejected ⟨[], []⟩ ⟨⟨[]⟩, ⟨[]⟩, ⟨[]⟩, ⟨[]⟩, ⟨[]⟩⟩ "sub-unknown" rfl

/-- C8: in any store reachable through the public operations, closing an
open trade succeeds; the closed trade then lives only in the history
partition; a repeated `CloseTrade` on the same id fails `TRADE_NOT_FOUND`;
and no failing `CloseTrade` on a reachable store ever reports
`TRADE_ALREADY_CLOSED` (the defensive branch is unreachable because
closure removes the trade from the open set in the same step that sets
its exit time). -/
theorem close_trade_first_ok_then_not_found (ops : List TradeOp) (id : String) (n1 n2 : Nat)
    (hopen : ∃ tr ∈ (runTradeOps ops).openTrades, tr.id = id) :
    (∃ tr' s',
      (runTradeOps ops).CloseTrade id n1 = .ok (tr', s') ∧
      (∀ u ∈ s'.openTrades, u.id ≠ id) ∧
      (∃ u ∈ s'.tradeHistory, u.id = id) ∧
      s'.CloseTrade id n2 = .error ⟨.tradeNotFound, "Trade not found: " ++ id⟩) ∧
    (∀ j m e, (runTradeOps ops).CloseTrade j m = .error e → e.code = .tradeNotFound) := by
  have hinv := runTradeOps_openAllUnclosed ops
  constructor
  · cases hf : (runTradeOps ops).openTrades.find? (fun t => t.id == id) with
    | none =>
      obtain ⟨tr, htr, hid⟩ := hopen
      have := List.find?_eq_none.mp hf tr htr
      simp [hid] at this
    | some tr0 =>
      have hmem : tr0 ∈ (runTradeOps ops).openTrades := List.mem_of_find?_eq_some hf
      have hid0 : tr0.id = id := by
        have := List.find?_some hf
        simpa using this
      have hexit : tr0.exitTime = none := hinv tr0 hmem
      refine ⟨{ tr0 with exitTime := some n1, exitPrice := tr0.entryPrice + 1 },
        { runTradeOps ops with
            openTrades := (runTradeOps ops).openTrades.filter (fun t => t.id != id),
            tradeHistory := (runTradeOps ops).tradeHistory
              ++ [{ tr0 with exitTime := some n1, exitPrice := tr0.entryPrice + 1 }] },
        ?_, ?_, ?_, ?_⟩
      · unfold InMemoryTradeStore.CloseTrade
        simp only [hf, hexit, Option.isSome_none, Bool.false_eq_true, if_false]
      · intro u hu
        have := List.of_mem_filter hu
        simpa using this
      · refine ⟨{ tr0 with exitTime := some n1, exitPrice := tr0.entryPrice + 1 }, ?_, hid0⟩
        simp
      · unfold InMemoryTradeStore.CloseTrade
        simp only [find?_key_filter_ne]
  · intro j m e hErr
    unfold InMemoryTradeStore.CloseTrade at hErr
    cases hf2 : (runTradeOps ops).openTrades.find? (fun t => t.id == j) with
    | none =>
      simp only [hf2, Except.error.injEq] at hErr
      rw [← hErr]
    | some trade =>
      simp only [hf2] at hErr
      have hx : trade.exitTime = none := hinv trade (List.mem_of_find?_eq_some hf2)
      rw [hx] at hErr
      simp at hErr

/-- C8 witness: concrete application of
`close_trade_first_ok_then_not_found` after one buy. -/
theorem close_trade_first_ok_then_not_found_witness :
    (∃ tr' s',
      (runTradeOps [.createOp "AAPL" 150 0]).CloseTrade "trade-0" 1 = .ok (tr', s') ∧
      (∀ u ∈ s'.openTrades, u.id ≠ "trade-0") ∧
      (∃ u ∈ s'.tradeHistory, u.id = "trade-0") ∧
      s'.CloseTrade "trade-0" 2 = .error ⟨.tradeNotFound, "Trade not found: " ++ "trade-0"⟩) ∧
    (∀ j m e, (runTradeOps [.createOp "AAPL" 150 0]).CloseTrade j m = .error e →
      e.code = .tradeNotFound) :=
  close_trade_first_ok_then_not_found [.createOp "AAPL" 150 0] "trade-0" 1 2
    ⟨⟨"trade-0", "AAPL", 150, 0, 0, none⟩, List.Mem.head _, rfl⟩

/-- C6: the HOLDING transition of the Martingale state machine. The
executor holds a valid current trade (present and unclosed in the store's
open set, positive entry price) and receives a matching-symbol tick with a
positive price (non-positive prices are rejected upstream by
`validateTick`). Then: at or above the take-profit target it sells,
resets size to base and count to 0, and clears the trade; strictly below
the entry price it sells, doubles the size when `positionCount <
maxPositions` and otherwise resets size and count, and clears the trade;
in between it does nothing. -/
theorem martingale_holding_transition
    (s : MartingaleStrategy) (store : InMemoryTradeStore) (t : Tick) (now : Nat) (tr : Trade)
    (htr : s.currentTrade = some tr)
    (hentry : 0 < tr.entryPrice)
    (hexit : tr.exitTime = none)
    (hfind : store.openTrades.find? (fun u => u.id == tr.id) = some tr)
    (hsym : t.symbol = s.symbol)
    (hprice : 0 < t.price)
    (htp : 0 < s.takeProfit) :
    (t.price ≥ tr.entryPrice * (1 + s.takeProfit / 100) →
      s.ProcessTick store (some t) now =
        (.ok (), s.resetPosition,
         { store with
             openTrades := store.openTrades.filter (fun u => u.id != tr.id),
             tradeHistory := store.tradeHistory
               ++ [{ tr with exitTime := some now, exitPrice := tr.entryPrice + 1 }] })) ∧
    (t.price < tr.entryPrice →
      (s.positionCount < s.maxPositions →
        s.ProcessTick store (some t) now =
          (.ok (), { s with currentSize := s.currentSize * 2, currentTrade := none },
           { store with
               openTrades := store.openTrades.filter (fun u => u.id != tr.id),
               tradeHistory := store.tradeHistory
                 ++ [{ tr with exitTime := some now, exitPrice := tr.entryPrice + 1 }] })) ∧
      (s.maxPositions ≤ s.positionCount →
        s.ProcessTick store (some t) now =
          (.ok (),
           { s with currentSize := s.basePosition, positionCount := 0, currentTrade := none },
           { store with
               openTrades := store.openTrades.filter (fun u => u.id != tr.id),
               tradeHistory := store.tradeHistory
                 ++ [{ tr with exitTime := some now, exitPrice := tr.entryPrice + 1 }] }))) ∧
    (tr.entryPrice ≤ t.price → t.price < tr.entryPrice * (1 + s.takeProfit / 100) →
      s.ProcessTick store (some t) now = (.ok (), s, store)) := by
  have hvt : s.validateTick (some t) = .ok () := by
    unfold MartingaleStrategy.validateTick
    simp [hsym, not_le.mpr hprice]
  have hvc : s.validateCurrentTrade = .ok () := by
    unfold MartingaleStrategy.validateCurrentTrade
    rw [htr]
    simp [not_le.mpr hentry, hexit]
  have hclose : store.CloseTrade tr.id now =
      .ok ({ tr with exitTime := some now, exitPrice := tr.entryPrice + 1 },
           { store with
               openTrades := store.openTrades.filter (fun u => u.id != tr.id),
               tradeHistory := store.tradeHistory
                 ++ [{ tr with exitTime := some now, exitPrice := tr.entryPrice + 1 }] }) := by
    unfold InMemoryTradeStore.CloseTrade
    simp only [hfind, hexit, Option.isSome_none, Bool.false_eq_true, if_false]
  have hlt_target : tr.entryPrice < tr.entryPrice * (1 + s.takeProfit / 100) := by
    have h100 : (0 : ℚ) < s.takeProfit / 100 := by positivity
    nlinarith
  refine ⟨?_, ?_, ?_⟩
  · intro hge
    unfold MartingaleStrategy.ProcessTick
    simp only [hvt, htr, hvc]
    rw [if_pos hge]
    unfold MartingaleStrategy.handleTakeProfit
    simp only [htr, hclose]
  · intro hlt
    have hnotge : ¬ (t.price ≥ tr.entryPrice * (1 + s.takeProfit / 100)) :=
      not_le.mpr (lt_trans hlt hlt_target)
    constructor
    · intro hcnt
      unfold MartingaleStrategy.ProcessTick
      simp only [hvt, htr, hvc]
      rw [if_neg hnotge, if_pos hlt]
      unfold MartingaleStrategy.handleLoss
      simp only [htr, hclose]
      rw [if_pos hcnt]
    · intro hcnt
      unfold MartingaleStrategy.ProcessTick
      simp only [hvt, htr, hvc]
      rw [if_neg hnotge, if_pos hlt]
      unfold MartingaleStrategy.handleLoss
      simp only [htr, hclose]
      rw [if_neg (not_lt.mpr hcnt)]
  · intro hle hltT
    unfold MartingaleStrategy.ProcessTick
    simp only [hvt, htr, hvc]
    rw [if_neg (not_le.mpr hltT), if_neg (not_lt.mpr hle)]

/-- C6 witness: concrete application of `martingale_holding_transition`
(take-profit case: executor holding trade-0 bought at 100 with 1% target,
tick AAPL@101). -/
theorem martingale_holding_transition_witness :
    MartingaleStrategy.ProcessTick
        ⟨"AAPL", 100, 1, 3, some ⟨"trade-0", "AAPL", 100, 0, 0, none⟩, 1, 100⟩
        ⟨[⟨"trade-0", "AAPL", 100, 0, 0, none⟩], [], 1⟩ (some ⟨"AAPL", 101, 0, 1⟩) 2
      = (.ok (), ⟨"AAPL", 100, 1, 3, none, 0, 100⟩,
         ⟨[], [⟨"trade-0", "AAPL", 100, 101, 0, some 2⟩], 1⟩) := by
  have h := (martingale_holding_transition
    ⟨"AAPL", 100, 1, 3, some ⟨"trade-0", "AAPL", 100, 0, 0, none⟩, 1, 100⟩
    ⟨[⟨"trade-0", "AAPL", 100, 0, 0, none⟩], [], 1⟩ ⟨"AAPL", 101, 0, 1⟩ 2
    ⟨"trade-0", "AAPL", 100, 0, 0, none⟩ rfl (by norm_num) rfl (by rfl) rfl
    (by norm_num) (by norm_num)).1 (by norm_num)
  norm_num [MartingaleStrategy.resetPosition] at h
  exact h

/-- C7: a Martingale executor started from its factory-initial state
(size = base, count = 0, no trade; the factory guarantees `base > 0` and
`max_positions ≥ 1`), after serially processing ANY tick sequence against
ANY store, rests with `positionCount ∈ [0, N]` and `currentSize ∈
{ base * 2 ^ k | 0 ≤ k ≤ N }` where `N = max_positions`. -/
theorem martingale_rest_invariant (s0 : MartingaleStrategy) (store0 : InMemoryTradeStore)
    (ticks : List (Tick × Nat))
    (hbase : 0 < s0.basePosition) (hmax : 1 ≤ s0.maxPositions)
    (hsize : s0.currentSize = s0.basePosition) (hcount : s0.positionCount = 0)
    (htrade : s0.currentTrade = none) :
    (runTicks s0 store0 ticks).1.positionCount ≤ s0.maxPositions ∧
    ∃ k, k ≤ s0.maxPositions ∧
      (runTicks s0 store0 ticks).1.currentSize = s0.basePosition * 2 ^ k := by
  have h0 : MartingaleInv s0.basePosition s0.maxPositions s0 := by
    refine ⟨rfl, rfl, ?_⟩
    rw [htrade]
    exact Or.inr ⟨hcount, hsize⟩
  have hfin := runTicks_preserves_inv s0.basePosition s0.maxPositions hmax ticks s0 store0 h0
  obtain ⟨hb, hM, hcase⟩ := hfin
  cases hc : (runTicks s0 store0 ticks).1.currentTrade with
  | some tr =>
    rw [hc] at hcase
    obtain ⟨h1, h2, h3⟩ := hcase
    exact ⟨h2, ⟨(runTicks s0 store0 ticks).1.positionCount - 1, by omega, h3⟩⟩
  | none =>
    rw [hc] at hcase
    rcases hcase with ⟨hlt, hsz⟩ | ⟨hc0, hsz⟩
    · exact ⟨Nat.le_of_lt hlt, ⟨(runTicks s0 store0 ticks).1.positionCount,
        Nat.le_of_lt hlt, hsz⟩⟩
    · refine ⟨by omega, ⟨0, Nat.zero_le _, ?_⟩⟩
      simpa using hsz

/-- C7 witness: concrete application of `martingale_rest_invariant` to an
executor for AAPL (base 100, cap 3) and the tick sequence
AAPL@100, AAPL@99 (buy then loss-double). -/
theorem martingale_rest_invariant_witness :
    (runTicks ⟨"AAPL", 100, 1, 3, none, 0, 100⟩ emptyTradeStore
        [(⟨"AAPL", 100, 0, 0⟩, 0), (⟨"AAPL", 99, 0, 1⟩, 1)]).1.positionCount ≤ 3 ∧
    ∃ k, k ≤ 3 ∧
      (runTicks ⟨"AAPL", 100, 1, 3, none, 0, 100⟩ emptyTradeStore
        [(⟨"AAPL", 100, 0, 0⟩, 0), (⟨"AAPL", 99, 0, 1⟩, 1)]).1.currentSize = 100 * 2 ^ k :=
  martingale_rest_invariant ⟨"AAPL", 100, 1, 3, none, 0, 100⟩ emptyTradeStore
    [(⟨"AAPL", 100, 0, 0⟩, 0), (⟨"AAPL", 99, 0, 1⟩, 1)]
    (by norm_num) (by norm_num) rfl rfl rfl

end AutoTrade
